import Mathlib

/-!
Verification of the Tandem 1:1 WebRTC signaling server, the browser-side
perfect-negotiation handlers and the speech-to-text session manager.

The definitions below are a shallow embedding of:
  * the Socket.IO signaling server (`server.js`): room membership for the
    single default room, the `join` handler and the three `signal:*` relay
    handlers;
  * the browser client (`public/script.js` / the client half of
    `speech-to-text.js`'s repository): the `signal:offer`, `signal:answer`
    and `signal:ice-candidate` socket handlers, running against a model of
    the browser's RTCPeerConnection signaling-state machine;
  * the `SpeechToTextService` class (`speech-to-text.js`):
    `createRecognizeStream`, `bindSocketToStream`, `processAudio` and
    `cleanup`, together with the restart timer armed by the stream's
    `data` events.  The service is modelled as a state machine over an
    explicit state record; asynchrony (timer callbacks, stream events,
    disconnects) is modelled as an arbitrary interleaving of atomic
    operations, each of which is one synchronous JavaScript callback run.
-/

/-! ## Signaling server: room membership and join (server.js) -/

/-- A socket identifier (Socket.IO `socket.id`). -/
abbrev SocketId := String

/-- Membership of the single default room (`main-room`).  Socket.IO stores a
room as a set of socket ids; we keep an insertion-ordered duplicate-free
list. -/
structure RoomState where
  members : List SocketId
deriving Repr, DecidableEq

/-- `getRoomSize` from server.js: size of the room (0 when absent). -/
def getRoomSize (r : RoomState) : Nat := r.members.length

/-- `socket.join(DEFAULT_ROOM)`: Socket.IO room membership is a set, so
joining a room one is already in is a no-op. -/
def socketJoin (r : RoomState) (sid : SocketId) : RoomState :=
  if sid ∈ r.members then r else ⟨r.members ++ [sid]⟩

/-- Events the server emits while handling `join` / `disconnect`. -/
inductive ServerEvent where
  | roomFull (target : SocketId)
  | joined (target : SocketId) (peers : Nat)
  | ready
  | initiate (target : SocketId)
  | peerDisconnected
deriving Repr, DecidableEq

/-- Recipients of each emitted event: `socket.emit` goes to one socket,
`io.to(DEFAULT_ROOM).emit('ready')` broadcasts to every room member, and
`socket.to(DEFAULT_ROOM).emit('peer_disconnected')` goes to the remaining
members. -/
def eventRecipients (r : RoomState) : ServerEvent → List SocketId
  | .roomFull t => [t]
  | .joined t _ => [t]
  | .ready => r.members
  | .initiate t => [t]
  | .peerDisconnected => r.members

/-- The server's `socket.on('join')` handler: read the current size, reject
with `room_full` when it is already ≥ 2, otherwise join, confirm with
`joined{room, peers}`, and on the transition to size 2 broadcast `ready`
and send `initiate` to the socket whose join completed the pair. -/
def handleJoin (r : RoomState) (sid : SocketId) : RoomState × List ServerEvent :=
  if getRoomSize r ≥ 2 then
    (r, [.roomFull sid])
  else
    if getRoomSize (socketJoin r sid) = 2 then
      (socketJoin r sid,
       [.joined sid (getRoomSize (socketJoin r sid)), .ready, .initiate sid])
    else
      (socketJoin r sid, [.joined sid (getRoomSize (socketJoin r sid))])

/-- The server's `socket.on('disconnect')` handler: Socket.IO removes the
socket from its rooms and the handler notifies the remaining member. -/
def handleDisconnect (r : RoomState) (sid : SocketId) : RoomState × List ServerEvent :=
  (⟨r.members.filter (fun m => decide (m ≠ sid))⟩, [.peerDisconnected])

/-- One client-facing operation on the room. -/
inductive RoomOp where
  | join (sid : SocketId)
  | leave (sid : SocketId)
deriving Repr, DecidableEq

/-- Apply one room operation (the event loop serialises them). -/
def roomStep (r : RoomState) : RoomOp → RoomState
  | .join sid => (handleJoin r sid).1
  | .leave sid => (handleDisconnect r sid).1

/-- Run a sequence of join/leave attempts against the initially empty room. -/
def runRoom (ops : List RoomOp) : RoomState :=
  ops.foldl roomStep ⟨[]⟩

/-! ## Signaling relay (server.js `signal:*` handlers) -/

/-- SDP descriptor type tag. -/
inductive SdpType where
  | offer
  | answer
deriving Repr, DecidableEq

/-- A session description: type tag plus opaque payload. -/
structure SessionDescription where
  sdpType : SdpType
  blob : String
deriving Repr, DecidableEq

/-- Wire payload of the three `signal:*` messages: `{sdp}` for offer/answer,
`{candidate}` for ice-candidate.  Either field may be absent. -/
structure RelayPayload where
  sdp : Option SessionDescription
  candidate : Option String
deriving Repr, DecidableEq

/-- The server's relay handlers for `signal:offer`, `signal:answer` and
`signal:ice-candidate` all have the same body:
`socket.to(DEFAULT_ROOM).emit(kind, payload)` — forward the payload,
uninspected, to every room member other than the sender. -/
def serverRelay (members : List SocketId) (sender : SocketId)
    (payload : RelayPayload) : List (SocketId × RelayPayload) :=
  (members.filter (fun m => decide (m ≠ sender))).map (fun m => (m, payload))

/-! ## Browser RTCPeerConnection model

The client handlers run against the browser's RTCPeerConnection, an
external collaborator.  We model the slice of its signaling-state machine
the handlers exercise: `setRemoteDescription`, `createAnswer`,
`setLocalDescription` and `addIceCandidate`, with the standard
InvalidStateError conditions (an answer only applies in
`have-local-offer`; a candidate needs a remote description). -/

/-- RTCPeerConnection signaling states reachable in this client. -/
inductive SignalingState where
  | stable
  | haveLocalOffer
  | haveRemoteOffer
deriving Repr, DecidableEq

/-- The modelled RTCPeerConnection. -/
structure PeerConn where
  signalingState : SignalingState
  localDescription : Option SessionDescription
  remoteDescription : Option SessionDescription
  appliedCandidates : List String
deriving Repr, DecidableEq

/-- `pc.setRemoteDescription(desc)`: a remote offer applies in `stable`
(or re-applies in `have-remote-offer`) and moves to `have-remote-offer`;
a remote answer applies only in `have-local-offer` and returns to
`stable`; anything else rejects with InvalidStateError. -/
def pcSetRemoteDescription (pc : PeerConn) (d : SessionDescription) :
    Except String PeerConn :=
  match d.sdpType with
  | .offer =>
    if pc.signalingState = .stable ∨ pc.signalingState = .haveRemoteOffer then
      .ok { pc with remoteDescription := some d, signalingState := .haveRemoteOffer }
    else
      .error "InvalidStateError"
  | .answer =>
    if pc.signalingState = .haveLocalOffer then
      .ok { pc with remoteDescription := some d, signalingState := .stable }
    else
      .error "InvalidStateError"

/-- `pc.createAnswer()`: only valid with a pending remote offer; the SDP
payload is opaque, modelled as derived from the remote offer's blob. -/
def pcCreateAnswer (pc : PeerConn) : Except String SessionDescription :=
  if pc.signalingState = .haveRemoteOffer then
    .ok ⟨.answer, ((pc.remoteDescription.map (fun d => d.blob)).getD "")⟩
  else
    .error "InvalidStateError"

/-- `pc.setLocalDescription(desc)`: a local offer moves
`stable`/`have-local-offer` to `have-local-offer`; a local answer moves
`have-remote-offer` back to `stable`. -/
def pcSetLocalDescription (pc : PeerConn) (d : SessionDescription) :
    Except String PeerConn :=
  match d.sdpType with
  | .offer =>
    if pc.signalingState = .stable ∨ pc.signalingState = .haveLocalOffer then
      .ok { pc with localDescription := some d, signalingState := .haveLocalOffer }
    else
      .error "InvalidStateError"
  | .answer =>
    if pc.signalingState = .haveRemoteOffer then
      .ok { pc with localDescription := some d, signalingState := .stable }
    else
      .error "InvalidStateError"

/-- `pc.addIceCandidate(candidate)`: rejects when no remote description has
been applied yet; otherwise records the candidate. -/
def pcAddIceCandidate (pc : PeerConn) (c : String) : Except String PeerConn :=
  if pc.remoteDescription = none then
    .error "InvalidStateError"
  else
    .ok { pc with appliedCandidates := pc.appliedCandidates ++ [c] }

/-! ## Client negotiation handlers (public/script.js `initSocket`) -/

/-- Per-client negotiation state: the peer connection plus the module-level
`makingOffer` flag.  (The source's module-level `ignoreOffer` variable is
written inside the offer handler and never read anywhere else, so it is
embedded as the handler-local binding it effectively is.) -/
structure ClientState where
  pc : PeerConn
  makingOffer : Bool
deriving Repr, DecidableEq

/-- Observable actions of a client handler run. -/
inductive ClientAction where
  | emitAnswer (sdp : SessionDescription)
  | logError (msg : String)
deriving Repr, DecidableEq

/-- The collision test of the offer handler:
`makingOffer || pc.signalingState !== 'stable'`. -/
def offerCollision (cs : ClientState) : Bool :=
  cs.makingOffer || decide (cs.pc.signalingState ≠ .stable)

/-- The client's `socket.on('signal:offer')` handler: extract `payload?.sdp`
(return silently when absent), compute the collision flag, discard the
offer when it is set — there is no politeness test — and otherwise apply
the remote description, create and apply an answer, and emit it.  Any
rejection inside the `try` block is caught and logged, keeping the state
reached so far. -/
def handleRemoteOffer (cs : ClientState) (payload : Option RelayPayload) :
    ClientState × List ClientAction :=
  match payload.bind (fun p => p.sdp) with
  | none => (cs, [])
  | some offer =>
    let ignoreOffer := offerCollision cs
    if ignoreOffer then
      (cs, [])
    else
      match pcSetRemoteDescription cs.pc offer with
      | .error _ => (cs, [.logError "Error handling remote offer"])
      | .ok pc1 =>
        match pcCreateAnswer pc1 with
        | .error _ => ({ cs with pc := pc1 }, [.logError "Error handling remote offer"])
        | .ok answer =>
          match pcSetLocalDescription pc1 answer with
          | .error _ => ({ cs with pc := pc1 }, [.logError "Error handling remote offer"])
          | .ok pc2 => ({ cs with pc := pc2 }, [.emitAnswer answer])

/-- The client's `socket.on('signal:answer')` handler: extract
`payload?.sdp` (return silently when absent) and apply it with
`pc.setRemoteDescription`; a rejection is caught and logged and the
state is left as it was. -/
def handleRemoteAnswer (cs : ClientState) (payload : Option RelayPayload) :
    ClientState × List ClientAction :=
  match payload.bind (fun p => p.sdp) with
  | none => (cs, [])
  | some answer =>
    match pcSetRemoteDescription cs.pc answer with
    | .ok pc1 => ({ cs with pc := pc1 }, [])
    | .error _ => (cs, [.logError "Error applying remote answer"])

/-- The client's `socket.on('signal:ice-candidate')` handler: destructure
`{candidate}`, and when present apply it immediately with
`pc.addIceCandidate` — there is no buffering; a rejection is caught and
logged and the candidate is lost. -/
def handleRemoteIceCandidate (cs : ClientState) (payload : Option RelayPayload) :
    ClientState × List ClientAction :=
  match payload.bind (fun p => p.candidate) with
  | none => (cs, [])
  | some c =>
    match pcAddIceCandidate cs.pc c with
    | .ok pc1 => ({ cs with pc := pc1 }, [])
    | .error _ => (cs, [.logError "Error adding remote ICE candidate"])

/-! ## SpeechToTextService (speech-to-text.js)

State of the service.  `createRecognizeStream` builds a first
`streamInfo` object, stores it in the map, attaches stream handlers whose
closures capture that object, and then stores a *second* object
`{stream, socket:null}` in the map, replacing the first.  Consequently the
restart-timer handle, which `setupRestartTimer` writes into the closure's
(first) object, is never visible through the map entry.  The embedding
keeps both: `registry` holds the map entries (their `restartTimer` field
is what `cleanup` reads), while `closureKeys`/`closureTimers` hold, per
created stream handle, the key captured by the closures and the timer
handle the closures store. -/

/-- A map entry of `recognizeStreams` as it is after `createRecognizeStream`
returns: the second object `{stream, socket}` (its `restartTimer` field is
absent, i.e. `none`). -/
structure SttEntry where
  stream : Nat
  socket : Option SocketId
  restartTimer : Option Nat
deriving Repr, DecidableEq

/-- State of the SpeechToTextService together with the Node timer queue and
the liveness of provider stream handles. -/
structure SttState where
  nextHandle : Nat
  nextTimer : Nat
  liveStreams : List Nat
  endedStreams : List Nat
  pendingTimers : List (Nat × SocketId)
  registry : List (SocketId × SttEntry)
  closureKeys : List (Nat × SocketId)
  closureTimers : List (Nat × Nat)
deriving Repr, DecidableEq

/-- The empty service state. -/
def SttState.init : SttState := ⟨0, 0, [], [], [], [], [], []⟩

/-- Look up the map entry for a socket id. -/
def lookupEntry (key : SocketId) (reg : List (SocketId × SttEntry)) : Option SttEntry :=
  (reg.find? (fun p => decide (p.1 = key))).map (fun p => p.2)

/-- Look up the key a stream handle's closures captured. -/
def lookupClosureKey (h : Nat) (cks : List (Nat × SocketId)) : Option SocketId :=
  (cks.find? (fun p => decide (p.1 = h))).map (fun p => p.2)

/-- Look up the timer handle currently stored in a stream's closure object. -/
def lookupClosureTimer (h : Nat) (cts : List (Nat × Nat)) : Option Nat :=
  (cts.find? (fun p => decide (p.1 = h))).map (fun p => p.2)

/-- `SpeechToTextService.cleanup(socketId)`: when an entry exists, clear the
timer held in the entry's `restartTimer` field (which is always absent,
see `createRecognizeStream`), destroy the entry's stream, and delete the
entry; a no-op for an unknown key. -/
def cleanup (s : SttState) (key : SocketId) : SttState :=
  match lookupEntry key s.registry with
  | none => s
  | some e =>
    let pending1 :=
      match e.restartTimer with
      | some t => s.pendingTimers.filter (fun p => decide (p.1 ≠ t))
      | none => s.pendingTimers
    { s with
      pendingTimers := pending1,
      liveStreams := s.liveStreams.filter (fun h => decide (h ≠ e.stream)),
      registry := s.registry.filter (fun p => decide (p.1 ≠ key)) }

/-- `SpeechToTextService.createRecognizeStream(socketId)`: first `cleanup`
the key, then open a fresh provider stream and store the map entry.  (The
net effect of the two `recognizeStreams.set` calls is an entry
`{stream, socket: null}` with no `restartTimer` field; the closures of the
stream's handlers capture the key.) -/
def createRecognizeStream (s : SttState) (key : SocketId) : SttState :=
  let s1 := cleanup s key
  let h := s1.nextHandle
  { s1 with
    nextHandle := h + 1,
    liveStreams := h :: s1.liveStreams,
    closureKeys := (h, key) :: s1.closureKeys,
    registry := (key, ⟨h, none, none⟩) :: s1.registry }

/-- `setupRestartTimer` (run on each `data` event of stream `h`): clear the
timer stored in the closure's object, arm a fresh one whose callback is
`createRecognizeStream(socketId)`, and store its handle back into the
closure's object. -/
def setupRestartTimer (s : SttState) (h : Nat) : SttState :=
  match lookupClosureKey h s.closureKeys with
  | none => s
  | some key =>
    let pending1 :=
      match lookupClosureTimer h s.closureTimers with
      | some t => s.pendingTimers.filter (fun p => decide (p.1 ≠ t))
      | none => s.pendingTimers
    let t := s.nextTimer
    { s with
      nextTimer := t + 1,
      pendingTimers := (t, key) :: pending1,
      closureTimers := (h, t) :: (s.closureTimers.filter (fun p => decide (p.1 ≠ h))) }

/-- A `data` event on stream `h` (only a live stream emits data): the
handler re-arms the restart timer and forwards the transcript (transcript
delivery does not touch the service state). -/
def dataEvent (s : SttState) (h : Nat) : SttState :=
  if h ∈ s.liveStreams then setupRestartTimer s h else s

/-- An `error` event on stream `h`: the handler attempts recovery by
calling `createRecognizeStream` for the closure's key (which in this model
always succeeds, so the catch-and-cleanup branch is unreachable). -/
def streamError (s : SttState) (h : Nat) : SttState :=
  match lookupClosureKey h s.closureKeys with
  | none => s
  | some key => createRecognizeStream s key

/-- A pending timer fires: Node removes it from the queue and runs its
callback, `createRecognizeStream(socketId)`.  A cleared or unknown timer
never fires. -/
def timerFire (s : SttState) (t : Nat) : SttState :=
  match (s.pendingTimers.find? (fun p => decide (p.1 = t))).map (fun p => p.2) with
  | none => s
  | some key =>
    createRecognizeStream
      { s with pendingTimers := s.pendingTimers.filter (fun p => decide (p.1 ≠ t)) } key

/-- `SpeechToTextService.bindSocketToStream(socketId, socket)`: store the
socket into the existing entry, or create a stream first and then store
it. -/
def bindSocketToStream (s : SttState) (key : SocketId) : SttState :=
  match lookupEntry key s.registry with
  | some e =>
    { s with
      registry := s.registry.map (fun p =>
        if p.1 = key then (key, { e with socket := some key }) else p) }
  | none =>
    let s1 := createRecognizeStream s key
    match lookupEntry key s1.registry with
    | some e =>
      { s1 with
        registry := s1.registry.map (fun p =>
          if p.1 = key then (key, { e with socket := some key }) else p) }
    | none => s1

/-! ## processAudio and buffer normalization (speech-to-text.js) -/

/-- The wire encodings of `data.buffer` that `processAudio` distinguishes:
a plain numeric array of int16 samples, a JSON-serialised Buffer
(`{type:'Buffer', data}` byte-array wrapper), or a raw binary Buffer. -/
inductive AudioBufferEnc where
  | numericArray (samples : List Int)
  | bufferJson (data : List Nat)
  | rawBuffer (bytes : List Nat)
deriving Repr, DecidableEq

/-- The `audioData` message payload: `{buffer, sampleRate, isFinal}`
(the sample rate is not consulted by `processAudio`). -/
structure AudioData where
  buffer : Option AudioBufferEnc
  isFinal : Bool
deriving Repr, DecidableEq

/-- JavaScript's ToInt16 conversion, applied elementwise by
`Int16Array.from`: wrap into [-2^15, 2^15). -/
def jsToInt16 (x : Int) : Int :=
  if x % 65536 < 32768 then x % 65536 else x % 65536 - 65536

/-- The two little-endian bytes backing one int16 slot of an
`Int16Array`'s ArrayBuffer. -/
def int16ToLEBytes (x : Int) : List Nat :=
  [(x % 65536).toNat % 256, (x % 65536).toNat / 256]

/-- `Buffer.from(Int16Array.from(arr).buffer)`: wrap every element to
int16, then view the backing store as bytes (little-endian). -/
def int16ArrayBytes (samples : List Int) : List Nat :=
  (samples.map jsToInt16).flatMap int16ToLEBytes

/-- The canonical little-endian byte serialisation of a list of int16
samples (the reference encoding the three wire forms should agree on). -/
def pcm16LE (samples : List Int) : List Nat :=
  samples.flatMap int16ToLEBytes

/-- The normalisation cascade of `processAudio`: numeric array ⇒
`Buffer.from(Int16Array.from(arr).buffer)`; `{type:'Buffer', data}` ⇒
`Buffer.from(data)` (each element is taken mod 256, as `Buffer.from`
does); an existing Buffer passes through; a missing buffer is invalid. -/
def normalizeAudioBuffer : Option AudioBufferEnc → Option (List Nat)
  | some (.numericArray samples) => some (int16ArrayBytes samples)
  | some (.bufferJson data) => some (data.map (fun b => b % 256))
  | some (.rawBuffer bytes) => some bytes
  | none => none

/-- Whether a stream handle accepts writes: created, not destroyed, not
ended. -/
def streamWritable (s : SttState) (h : Nat) : Bool :=
  decide (h ∈ s.liveStreams) && decide (h ∉ s.endedStreams)

/-- Observable actions of one `processAudio` run. -/
inductive AudioAction where
  | write (h : Nat) (bytes : List Nat)
  | endStream (h : Nat)
  | logNoStream
  | logInvalid
deriving Repr, DecidableEq

/-- `SpeechToTextService.processAudio(socketId, data)`: bail out (logging)
when there is no entry or the stream is not writable; normalise the
buffer (logging when invalid); write it when non-empty; and `end()` the
stream when `isFinal` is set. -/
def processAudio (s : SttState) (key : SocketId) (d : AudioData) :
    SttState × List AudioAction :=
  match lookupEntry key s.registry with
  | none => (s, [.logNoStream])
  | some e =>
    if streamWritable s e.stream then
      match normalizeAudioBuffer d.buffer with
      | none => (s, [.logInvalid])
      | some bytes =>
        let writes := if bytes.length > 0 then [AudioAction.write e.stream bytes] else []
        if d.isFinal then
          ({ s with endedStreams := e.stream :: s.endedStreams },
           writes ++ [.endStream e.stream])
        else
          (s, writes)
    else
      (s, [.logNoStream])

/-! ## Interleavings of service operations -/

/-- One atomic callback run touching the service: a direct create (new
connection), a socket binding, a `data`/`error` stream event, a timer
expiry, an `audioData` message, or a disconnect (`cleanup`). -/
inductive SttOp where
  | create (key : SocketId)
  | bindSocket (key : SocketId)
  | data (h : Nat)
  | streamErr (h : Nat)
  | fire (t : Nat)
  | audio (key : SocketId) (d : AudioData)
  | disconnect (key : SocketId)
deriving Repr, DecidableEq

/-- Apply one operation (the Node event loop serialises them). -/
def sttStep (s : SttState) : SttOp → SttState
  | .create key => createRecognizeStream s key
  | .bindSocket key => bindSocketToStream s key
  | .data h => dataEvent s h
  | .streamErr h => streamError s h
  | .fire t => timerFire s t
  | .audio key d => (processAudio s key d).1
  | .disconnect key => cleanup s key

/-- Run a sequence of operations from the empty service. -/
def runStt (ops : List SttOp) : SttState :=
  ops.foldl sttStep SttState.init

/-- The stream handles currently live for a given peer key: live handles
whose closures captured that key. -/
def liveHandlesOf (s : SttState) (k : SocketId) : List Nat :=
  s.liveStreams.filter (fun h => decide (lookupClosureKey h s.closureKeys = some k))

/-- Structural invariant of the service state: registry keys are distinct,
each registry entry owns a distinct live stream, every live stream is
owned by some registry entry, stream handles are below the allocation
counter, map entries never carry a `restartTimer` (the second
`recognizeStreams.set` discards it), and each entry's stream closure
captured that entry's key. -/
structure SttInv (s : SttState) : Prop where
  keysNodup : (s.registry.map (fun p => p.1)).Nodup
  liveNodup : s.liveStreams.Nodup
  regLive : ∀ p ∈ s.registry, p.2.stream ∈ s.liveStreams
  liveReg : ∀ h ∈ s.liveStreams, ∃ p ∈ s.registry, p.2.stream = h
  liveLt : ∀ h ∈ s.liveStreams, h < s.nextHandle
  regTimer : ∀ p ∈ s.registry, p.2.restartTimer = none
  regKey : ∀ p ∈ s.registry, lookupClosureKey p.2.stream s.closureKeys = some p.1
  streamsNodup : (s.registry.map (fun p => p.2.stream)).Nodup

/-! ## Room lemmas -/

/-- The room after a join, ignoring the emitted events. -/
theorem handleJoin_fst (r : RoomState) (sid : SocketId) :
    (handleJoin r sid).1 = if getRoomSize r ≥ 2 then r else socketJoin r sid := by
  unfold handleJoin
  split
  · rfl
  · split <;> rfl

/-- One room operation preserves distinctness and the size bound. -/
theorem roomStep_preserves (r : RoomState) (op : RoomOp)
    (hn : r.members.Nodup) (hl : r.members.length ≤ 2) :
    (roomStep r op).members.Nodup ∧ (roomStep r op).members.length ≤ 2 := by
  cases op with
  | join sid =>
    have hfst : roomStep r (.join sid)
        = if getRoomSize r ≥ 2 then r else socketJoin r sid := handleJoin_fst r sid
    rw [hfst]
    split
    · exact ⟨hn, hl⟩
    · rename_i hsize
      unfold socketJoin
      split
      · exact ⟨hn, hl⟩
      · rename_i hmem
        constructor
        · refine List.Nodup.append hn (List.nodup_singleton sid) ?_
          intro a ha hb
          rw [List.mem_singleton] at hb
          exact hmem (hb ▸ ha)
        · unfold getRoomSize at hsize
          simp only [List.length_append, List.length_singleton]
          omega
  | leave sid =>
    constructor
    · exact List.Nodup.filter _ hn
    · exact Nat.le_trans (List.length_filter_le _ _) hl

/-- Every reachable room state has distinct members and at most two of them. -/
theorem runRoom_inv (ops : List RoomOp) :
    (runRoom ops).members.Nodup ∧ (runRoom ops).members.length ≤ 2 := by
  suffices h : ∀ (l : List RoomOp) (r : RoomState),
      r.members.Nodup → r.members.length ≤ 2 →
      (l.foldl roomStep r).members.Nodup ∧ (l.foldl roomStep r).members.length ≤ 2 by
    exact h ops ⟨[]⟩ (by simp) (by simp)
  intro l
  induction l with
  | nil => intro r hn hl; exact ⟨hn, hl⟩
  | cons op tl ih =>
    intro r hn hl
    obtain ⟨hn1, hl1⟩ := roomStep_preserves r op hn hl
    exact ih _ hn1 hl1

/-- C4: for any sequence of join attempts (and leaves), the room membership
size never exceeds 2, and a join arriving while the size is already ≥ 2 is
rejected with `room_full` and leaves membership unchanged. -/
theorem room_capacity_invariant (ops : List RoomOp) (sid : SocketId) :
    getRoomSize (runRoom ops) ≤ 2
    ∧ (2 ≤ getRoomSize (runRoom ops) →
        handleJoin (runRoom ops) sid = (runRoom ops, [.roomFull sid])) := by
  refine ⟨(runRoom_inv ops).2, ?_⟩
  intro h2
  unfold handleJoin
  rw [if_pos h2]

/-- C4 witness: a third join attempt is rejected and the room keeps its two
members. -/
theorem room_capacity_invariant_witness :
    getRoomSize (runRoom [.join "A", .join "B", .join "C"]) ≤ 2
    ∧ handleJoin (runRoom [.join "A", .join "B", .join "C"]) "C"
        = (runRoom [.join "A", .join "B", .join "C"], [.roomFull "C"]) := by
  have h := room_capacity_invariant [.join "A", .join "B", .join "C"] "C"
  exact ⟨h.1, h.2 (by decide)⟩

/-- C5: the join that brings the room from one member to two emits
`joined{peers:2}` to the joiner, broadcasts `ready` to both members, and
sends `initiate` to exactly the second joiner; no run of the join handler
ever addresses `initiate` to anyone but the socket whose join it is
handling. -/
theorem second_joiner_gets_initiate (r : RoomState) (sid : SocketId)
    (h1 : getRoomSize r = 1) (h2 : sid ∉ r.members) :
    handleJoin r sid
      = (⟨r.members ++ [sid]⟩, [.joined sid 2, .ready, .initiate sid])
    ∧ eventRecipients ⟨r.members ++ [sid]⟩ .ready = r.members ++ [sid]
    ∧ ∀ (r2 : RoomState) (t : SocketId),
        ServerEvent.initiate t ∈ (handleJoin r2 sid).2 → t = sid := by
  have hs : socketJoin r sid = ⟨r.members ++ [sid]⟩ := by
    unfold socketJoin
    rw [if_neg h2]
  have hlen : getRoomSize (socketJoin r sid) = 2 := by
    rw [hs]
    unfold getRoomSize at h1 ⊢
    simp only [List.length_append, List.length_singleton]
    omega
  refine ⟨?_, rfl, ?_⟩
  · unfold handleJoin
    rw [if_neg (by unfold getRoomSize at h1 ⊢; omega), if_pos hlen, hlen, hs]
  · intro r2 t ht
    unfold handleJoin at ht
    split at ht
    · simp at ht
    · split at ht
      · simp only [List.mem_cons, List.not_mem_nil, or_false] at ht
        rcases ht with h | h | h
        · exact absurd h (by simp)
        · exact absurd h (by simp)
        · exact (ServerEvent.initiate.injEq t sid).mp h
      · simp at ht

/-- C5 witness: with `A` alone in the room, `B`'s join fills it: both get
`ready` and only `B` gets `initiate`. -/
theorem second_joiner_gets_initiate_witness :
    handleJoin ⟨["A"]⟩ "B" = (⟨["A", "B"]⟩, [.joined "B" 2, .ready, .initiate "B"])
    ∧ eventRecipients ⟨["A", "B"]⟩ .ready = ["A", "B"] := by
  have h := second_joiner_gets_initiate ⟨["A"]⟩ "B" (by decide) (by decide)
  exact ⟨h.1, h.2.1⟩

/-- C10: a join from a socket already counted in a full room is rejected by
the capacity check (`room_full`, membership unchanged); a repeated join
from the sole member of a 1-member room re-emits `joined{peers:1}` without
changing membership and without `ready` or `initiate`. -/
theorem rejoin_member_behavior (r : RoomState) (sid : SocketId) :
    (2 ≤ getRoomSize r → sid ∈ r.members →
        handleJoin r sid = (r, [.roomFull sid]))
    ∧ (r.members = [sid] → handleJoin r sid = (r, [.joined sid 1])) := by
  constructor
  · intro h2 _
    unfold handleJoin
    rw [if_pos h2]
  · intro hm
    have hmem : sid ∈ r.members := by
      rw [hm]
      exact List.mem_singleton_self sid
    have hsj : socketJoin r sid = r := by
      unfold socketJoin
      rw [if_pos hmem]
    have hsize : getRoomSize r = 1 := by
      unfold getRoomSize
      rw [hm]
      rfl
    unfold handleJoin
    rw [hsj, hsize]
    norm_num

/-- C10 witness: the sole member `A` re-joins and gets `joined{peers:1}`
again; a member of the full room re-joins and gets `room_full`. -/
theorem rejoin_member_behavior_witness :
    handleJoin ⟨["A", "B"]⟩ "A" = (⟨["A", "B"]⟩, [.roomFull "A"])
    ∧ handleJoin ⟨["A"]⟩ "A" = (⟨["A"]⟩, [.joined "A" 1]) := by
  exact ⟨(rejoin_member_behavior ⟨["A", "B"]⟩ "A").1 (by decide) (by decide),
         (rejoin_member_behavior ⟨["A"]⟩ "A").2 rfl⟩

/-! ## Relay and client handler claims -/

/-- C8 counterexample: a `signal:offer` payload with no `sdp` field is
still forwarded by the relay to the other room member — the relay performs
no shape validation and drops nothing. -/
theorem relay_forwards_missing_sdp :
    serverRelay ["alice", "bob"] "alice" ⟨none, none⟩
      = [("bob", (⟨none, none⟩ : RelayPayload))] := by decide

/-- C8 (amended): the relay forwards every signaling payload verbatim to
every other member of the sender's room, malformed or not; a payload
lacking its required field is instead dropped by the receiving client
handlers, which return without applying anything or changing state. -/
theorem relay_verbatim_client_drops (members : List SocketId) (sender m : SocketId)
    (p : RelayPayload) (cs : ClientState)
    (hs : p.sdp = none) (hc : p.candidate = none)
    (hm : m ∈ members) (hne : m ≠ sender) :
    (m, p) ∈ serverRelay members sender p
    ∧ handleRemoteOffer cs (some p) = (cs, [])
    ∧ handleRemoteAnswer cs (some p) = (cs, [])
    ∧ handleRemoteIceCandidate cs (some p) = (cs, []) := by
  refine ⟨?_, ?_, ?_, ?_⟩
  · exact List.mem_map.2 ⟨m, List.mem_filter.2 ⟨hm, by simp [hne]⟩, rfl⟩
  · simp [handleRemoteOffer, hs]
  · simp [handleRemoteAnswer, hs]
  · simp [handleRemoteIceCandidate, hc]

/-- C8 witness: a payload with both fields absent reaches the other member
verbatim and is dropped by every client handler. -/
theorem relay_verbatim_client_drops_witness :
    ("bob", (⟨none, none⟩ : RelayPayload)) ∈ serverRelay ["alice", "bob"] "alice" ⟨none, none⟩
    ∧ handleRemoteOffer ⟨⟨.stable, none, none, []⟩, false⟩ (some ⟨none, none⟩)
        = (⟨⟨.stable, none, none, []⟩, false⟩, [])
    ∧ handleRemoteAnswer ⟨⟨.stable, none, none, []⟩, false⟩ (some ⟨none, none⟩)
        = (⟨⟨.stable, none, none, []⟩, false⟩, [])
    ∧ handleRemoteIceCandidate ⟨⟨.stable, none, none, []⟩, false⟩ (some ⟨none, none⟩)
        = (⟨⟨.stable, none, none, []⟩, false⟩, []) :=
  relay_verbatim_client_drops ["alice", "bob"] "alice" "bob" ⟨none, none⟩
    ⟨⟨.stable, none, none, []⟩, false⟩ rfl rfl (by decide) (by decide)

/-- C1 counterexample: the offer handler has no politeness branch.  Here
the polite peer (the non-initiator) is itself mid-offer — classic glare —
and the incoming remote offer is discarded with no state change and no
answer, instead of being honored as the claim requires of a polite peer. -/
theorem polite_peer_colliding_offer_discarded :
    handleRemoteOffer ⟨⟨.haveLocalOffer, some ⟨.offer, "mine"⟩, none, []⟩, false⟩
        (some ⟨some ⟨.offer, "theirs"⟩, none⟩)
      = (⟨⟨.haveLocalOffer, some ⟨.offer, "mine"⟩, none, []⟩, false⟩, []) := by rfl

/-- C1 (amended): on receiving a remote offer with
`collision = makingOffer || state ≠ stable`, any peer — polite or
impolite — discards the offer with no state change when the collision
flag is set; with no collision the remote description is applied, an
answer is created, applied and emitted, and the peer ends in `stable`. -/
theorem offer_handler_collision_behavior (cs : ClientState) (o : SessionDescription)
    (ho : o.sdpType = .offer) :
    (offerCollision cs = true →
        handleRemoteOffer cs (some ⟨some o, none⟩) = (cs, []))
    ∧ (offerCollision cs = false →
        handleRemoteOffer cs (some ⟨some o, none⟩)
          = (⟨⟨.stable, some ⟨.answer, o.blob⟩, some o, cs.pc.appliedCandidates⟩, false⟩,
             [.emitAnswer ⟨.answer, o.blob⟩])) := by
  obtain ⟨⟨st, ld, rd, ac⟩, mo⟩ := cs
  obtain ⟨ty, blob⟩ := o
  cases ho
  constructor
  · intro hcol
    simp only [handleRemoteOffer, Option.some_bind, hcol, if_true]
  · intro hcol
    simp only [offerCollision, Bool.or_eq_false_iff, decide_eq_false_iff_not,
      ne_eq, not_not] at hcol
    obtain ⟨hmo, hst⟩ := hcol
    cases mo
    · cases hst
      rfl
    · cases hmo

/-- C1 witness: with `makingOffer` raised the offer is dropped unchanged;
from a quiet stable state the same offer is answered and the peer returns
to stable. -/
theorem offer_handler_collision_behavior_witness :
    handleRemoteOffer ⟨⟨.stable, none, none, []⟩, true⟩
        (some ⟨some ⟨.offer, "o1"⟩, none⟩)
      = (⟨⟨.stable, none, none, []⟩, true⟩, [])
    ∧ handleRemoteOffer ⟨⟨.stable, none, none, []⟩, false⟩
        (some ⟨some ⟨.offer, "o1"⟩, none⟩)
      = (⟨⟨.stable, some ⟨.answer, "o1"⟩, some ⟨.offer, "o1"⟩, []⟩, false⟩,
         [.emitAnswer ⟨.answer, "o1"⟩]) :=
  ⟨(offer_handler_collision_behavior ⟨⟨.stable, none, none, []⟩, true⟩ ⟨.offer, "o1"⟩ rfl).1 rfl,
   (offer_handler_collision_behavior ⟨⟨.stable, none, none, []⟩, false⟩ ⟨.offer, "o1"⟩ rfl).2 rfl⟩

/-- C7: a remote answer arriving while the peer is not in
`have-local-offer` is not applied: the apply step rejects, the handler
catches and logs the error, and the state is returned exactly as it was —
the handler terminates normally, so the session does not crash. -/
theorem answer_without_local_offer_ignored (cs : ClientState) (a : SessionDescription)
    (ha : a.sdpType = .answer) (hs : cs.pc.signalingState ≠ .haveLocalOffer) :
    handleRemoteAnswer cs (some ⟨some a, none⟩)
      = (cs, [.logError "Error applying remote answer"]) := by
  obtain ⟨ty, blob⟩ := a
  cases ha
  simp only [handleRemoteAnswer, Option.some_bind, pcSetRemoteDescription, if_neg hs]

/-- C7 witness: an unsolicited answer in the stable state is ignored with a
logged error and no state change. -/
theorem answer_without_local_offer_ignored_witness :
    handleRemoteAnswer ⟨⟨.stable, none, none, []⟩, false⟩
        (some ⟨some ⟨.answer, "a1"⟩, none⟩)
      = (⟨⟨.stable, none, none, []⟩, false⟩, [.logError "Error applying remote answer"]) :=
  answer_without_local_offer_ignored ⟨⟨.stable, none, none, []⟩, false⟩ ⟨.answer, "a1"⟩
    rfl (by decide)

/-- C6 (code bug evidence): an ICE candidate arriving before any remote
description is applied immediately — there is no buffer — so the apply
step rejects, the error is caught and logged, and the candidate is lost:
even after a remote offer is subsequently applied, no buffered candidate
is flushed (the applied-candidate list stays empty).  The handler does
return normally (no crash). -/
theorem ice_candidate_before_remote_description_dropped :
    handleRemoteIceCandidate ⟨⟨.stable, none, none, []⟩, false⟩
        (some ⟨none, some "cand0"⟩)
      = (⟨⟨.stable, none, none, []⟩, false⟩, [.logError "Error adding remote ICE candidate"])
    ∧ (handleRemoteOffer
         (handleRemoteIceCandidate ⟨⟨.stable, none, none, []⟩, false⟩
           (some ⟨none, some "cand0"⟩)).1
         (some ⟨some ⟨.offer, "remote"⟩, none⟩)).1.pc.appliedCandidates = [] :=
  ⟨rfl, rfl⟩

/-! ## Association-list lemmas for the service registry -/

/-- Filtering out a key makes its lookup fail. -/
theorem assoc_find_filter_ne {α β : Type} [DecidableEq α] (l : List (α × β)) (k : α) :
    (l.filter (fun p => decide (p.1 ≠ k))).find? (fun p => decide (p.1 = k)) = none := by
  rw [List.find?_eq_none]
  intro p hp
  have h2 := (List.mem_filter.mp hp).2
  simp only [decide_eq_true_eq] at h2 ⊢
  exact h2

/-- A successful lookup returns a member carrying the looked-up key. -/
theorem assoc_find_mem {α β : Type} [DecidableEq α] {l : List (α × β)} {k : α} {p : α × β}
    (h : l.find? (fun q => decide (q.1 = k)) = some p) : p ∈ l ∧ p.1 = k := by
  refine ⟨List.mem_of_find?_eq_some h, ?_⟩
  have := List.find?_some h
  simpa using this

/-- With distinct keys, every member is found by looking up its own key. -/
theorem assoc_find_of_mem_nodup {α β : Type} [DecidableEq α] {l : List (α × β)} {p : α × β}
    (hn : (l.map (fun q => q.1)).Nodup) (hm : p ∈ l) :
    l.find? (fun q => decide (q.1 = p.1)) = some p := by
  induction l with
  | nil => cases hm
  | cons q tl ih =>
    rcases List.mem_cons.mp hm with hq | htl
    · subst hq
      simp [List.find?]
    · have hq1 : q.1 ≠ p.1 := by
        intro heq
        have : q.1 ∈ tl.map (fun q => q.1) := heq ▸ List.mem_map_of_mem _ htl
        exact (List.nodup_cons.mp hn).1 this
      rw [List.find?_cons_of_neg _ (by simpa using hq1)]
      exact ih (List.nodup_cons.mp hn).2 htl

/-- `lookupEntry` version of `assoc_find_mem`. -/
theorem lookupEntry_mem {reg : List (SocketId × SttEntry)} {key : SocketId} {e : SttEntry}
    (h : lookupEntry key reg = some e) : (key, e) ∈ reg := by
  unfold lookupEntry at h
  cases hf : reg.find? (fun p => decide (p.1 = key)) with
  | none => rw [hf] at h; cases h
  | some p =>
    rw [hf] at h
    obtain ⟨hm, hk⟩ := assoc_find_mem hf
    have : p.2 = e := by simpa using h
    have hp : p = (key, e) := by
      cases p
      simp_all
    exact hp ▸ hm

/-- With distinct keys, the entry of a member is what its key looks up to. -/
theorem lookupEntry_of_mem_nodup {reg : List (SocketId × SttEntry)} {p : SocketId × SttEntry}
    (hn : (reg.map (fun q => q.1)).Nodup) (hm : p ∈ reg) :
    lookupEntry p.1 reg = some p.2 := by
  unfold lookupEntry
  rw [assoc_find_of_mem_nodup hn hm]
  rfl

/-- `cleanup` never touches the handle allocator. -/
theorem cleanup_nextHandle (s : SttState) (key : SocketId) :
    (cleanup s key).nextHandle = s.nextHandle := by
  unfold cleanup
  cases lookupEntry key s.registry <;> rfl

/-- `cleanup` never touches the closure-key table. -/
theorem cleanup_closureKeys (s : SttState) (key : SocketId) :
    (cleanup s key).closureKeys = s.closureKeys := by
  unfold cleanup
  cases lookupEntry key s.registry <;> rfl

/-- After `cleanup` the key has no registry entry. -/
theorem cleanup_lookup_none (s : SttState) (key : SocketId) :
    lookupEntry key (cleanup s key).registry = none := by
  unfold cleanup
  cases hl : lookupEntry key s.registry with
  | none => exact hl
  | some e =>
    show lookupEntry key (s.registry.filter (fun p => decide (p.1 ≠ key))) = none
    unfold lookupEntry
    rw [assoc_find_filter_ne]
    rfl

/-! ## Invariant preservation for the service state machine -/

/-- The empty service state satisfies the invariant. -/
theorem sttInv_init : SttInv SttState.init := by
  constructor <;> simp [SttState.init]

/-- `cleanup` preserves the invariant. -/
theorem sttInv_cleanup (s : SttState) (key : SocketId) (inv : SttInv s) :
    SttInv (cleanup s key) := by
  unfold cleanup
  cases hl : lookupEntry key s.registry with
  | none => exact inv
  | some e =>
    have hme : (key, e) ∈ s.registry := lookupEntry_mem hl
    refine ⟨?_, ?_, ?_, ?_, ?_, ?_, ?_, ?_⟩
    · exact List.Nodup.sublist (List.Sublist.map _ (List.filter_sublist _)) inv.keysNodup
    · exact List.Nodup.filter _ inv.liveNodup
    · intro p hp
      obtain ⟨hpm, hpk⟩ := List.mem_filter.mp hp
      have hpk' : p.1 ≠ key := by simpa using hpk
      refine List.mem_filter.mpr ⟨inv.regLive p hpm, ?_⟩
      have hne : p.2.stream ≠ e.stream := by
        intro heq
        have hpe : p = (key, e) :=
          List.inj_on_of_nodup_map inv.streamsNodup hpm hme heq
        exact hpk' (by rw [hpe])
      simpa using hne
    · intro h hh
      obtain ⟨hlive, hne⟩ := List.mem_filter.mp hh
      have hne' : h ≠ e.stream := by simpa using hne
      obtain ⟨p, hpm, hps⟩ := inv.liveReg h hlive
      refine ⟨p, List.mem_filter.mpr ⟨hpm, ?_⟩, hps⟩
      have : p.1 ≠ key := by
        intro heq
        have hpe : p = (key, e) :=
          List.inj_on_of_nodup_map inv.keysNodup hpm hme (by rw [heq])
        rw [hpe] at hps
        exact hne' hps.symm
      simpa using this
    · intro h hh
      exact inv.liveLt h (List.mem_filter.mp hh).1
    · intro p hp
      exact inv.regTimer p (List.mem_filter.mp hp).1
    · intro p hp
      exact inv.regKey p (List.mem_filter.mp hp).1
    · exact List.Nodup.sublist (List.Sublist.map _ (List.filter_sublist _)) inv.streamsNodup

/-- Adding a freshly allocated stream and entry for an absent key preserves
the invariant (the shared tail of `createRecognizeStream` after its
`cleanup`). -/
theorem sttInv_addFresh (s1 : SttState) (key : SocketId) (inv1 : SttInv s1)
    (hkey : ∀ p ∈ s1.registry, p.1 ≠ key) :
    SttInv { s1 with
      nextHandle := s1.nextHandle + 1,
      liveStreams := s1.nextHandle :: s1.liveStreams,
      closureKeys := (s1.nextHandle, key) :: s1.closureKeys,
      registry := (key, ⟨s1.nextHandle, none, none⟩) :: s1.registry } := by
  have hfresh : s1.nextHandle ∉ s1.liveStreams := fun hmem =>
    absurd (inv1.liveLt _ hmem) (by omega)
  have hregfresh : ∀ p ∈ s1.registry, p.2.stream ≠ s1.nextHandle := by
    intro p hp heq
    exact absurd (heq ▸ inv1.liveLt _ (inv1.regLive p hp)) (by omega)
  refine ⟨?_, ?_, ?_, ?_, ?_, ?_, ?_, ?_⟩
  · rw [List.map_cons]
    refine List.nodup_cons.mpr ⟨?_, inv1.keysNodup⟩
    intro hmem
    obtain ⟨p, hp, hpk⟩ := List.mem_map.mp hmem
    exact hkey p hp hpk
  · exact List.nodup_cons.mpr ⟨hfresh, inv1.liveNodup⟩
  · intro p hp
    rcases List.mem_cons.mp hp with hnew | hold
    · rw [hnew]
      exact List.mem_cons_self _ _
    · exact List.mem_cons_of_mem _ (inv1.regLive p hold)
  · intro h hh
    rcases List.mem_cons.mp hh with hnew | hold
    · exact ⟨(key, ⟨s1.nextHandle, none, none⟩), List.mem_cons_self _ _, hnew.symm⟩
    · obtain ⟨p, hp, hps⟩ := inv1.liveReg h hold
      exact ⟨p, List.mem_cons_of_mem _ hp, hps⟩
  · intro h hh
    show h < s1.nextHandle + 1
    rcases List.mem_cons.mp hh with hnew | hold
    · omega
    · have := inv1.liveLt h hold
      omega
  · intro p hp
    rcases List.mem_cons.mp hp with hnew | hold
    · rw [hnew]
    · exact inv1.regTimer p hold
  · intro p hp
    rcases List.mem_cons.mp hp with hnew | hold
    · rw [hnew]
      unfold lookupClosureKey
      rw [List.find?_cons_of_pos _ (by simp)]
      rfl
    · have hne : p.2.stream ≠ s1.nextHandle := hregfresh p hold
      unfold lookupClosureKey
      rw [List.find?_cons_of_neg _ (by simpa using fun h => hne h.symm)]
      exact inv1.regKey p hold
  · rw [List.map_cons]
    refine List.nodup_cons.mpr ⟨?_, inv1.streamsNodup⟩
    intro hmem
    obtain ⟨p, hp, hpk⟩ := List.mem_map.mp hmem
    exact hregfresh p hp hpk

/-- `createRecognizeStream` preserves the invariant. -/
theorem sttInv_create (s : SttState) (key : SocketId) (inv : SttInv s) :
    SttInv (createRecognizeStream s key) := by
  have inv1 := sttInv_cleanup s key inv
  have hnone := cleanup_lookup_none s key
  have hkey : ∀ p ∈ (cleanup s key).registry, p.1 ≠ key := by
    intro p hp heq
    unfold lookupEntry at hnone
    rcases Option.map_eq_none'.mp hnone with hfind
    have := List.find?_eq_none.mp hfind p hp
    simp [heq] at this
  exact sttInv_addFresh (cleanup s key) key inv1 hkey

/-- Updating the `socket` field of the entry found for a key (the body of
`bindSocketToStream`) preserves the invariant. -/
theorem sttInv_updateSocket (s : SttState) (key : SocketId) (e : SttEntry)
    (inv : SttInv s) (hl : lookupEntry key s.registry = some e) :
    SttInv { s with registry := s.registry.map (fun p =>
      if p.1 = key then (key, { e with socket := some key }) else p) } := by
  have hpe : ∀ p ∈ s.registry, p.1 = key → p.2 = e := by
    intro p hp hpk
    have hfind := assoc_find_of_mem_nodup inv.keysNodup hp
    unfold lookupEntry at hl
    rw [hpk] at hfind
    rw [hfind] at hl
    simpa using hl
  have hfst : ∀ p ∈ s.registry,
      (if p.1 = key then ((key, { e with socket := some key }) : SocketId × SttEntry) else p).1
        = p.1 := by
    intro p _
    by_cases h : p.1 = key
    · rw [if_pos h, h]
    · rw [if_neg h]
  have hsnd : ∀ p ∈ s.registry,
      (if p.1 = key then ((key, { e with socket := some key }) : SocketId × SttEntry) else p).2.stream
        = p.2.stream := by
    intro p hp
    by_cases h : p.1 = key
    · rw [if_pos h, hpe p hp h]
    · rw [if_neg h]
  have hkeys : ((s.registry.map (fun p =>
      if p.1 = key then (key, { e with socket := some key }) else p)).map (fun p => p.1))
        = s.registry.map (fun p => p.1) := by
    rw [List.map_map]
    exact List.map_congr_left hfst
  have hstreams : ((s.registry.map (fun p =>
      if p.1 = key then (key, { e with socket := some key }) else p)).map (fun p => p.2.stream))
        = s.registry.map (fun p => p.2.stream) := by
    rw [List.map_map]
    exact List.map_congr_left hsnd
  refine ⟨?_, ?_, ?_, ?_, ?_, ?_, ?_, ?_⟩
  · rw [hkeys]
    exact inv.keysNodup
  · exact inv.liveNodup
  · intro p' hp'
    obtain ⟨p, hp, hmap⟩ := List.mem_map.mp hp'
    rw [← hmap]
    show (if p.1 = key then _ else p).2.stream ∈ s.liveStreams
    rw [hsnd p hp]
    exact inv.regLive p hp
  · intro h hh
    obtain ⟨p, hp, hps⟩ := inv.liveReg h hh
    refine ⟨_, List.mem_map_of_mem _ hp, ?_⟩
    rw [hsnd p hp]
    exact hps
  · exact inv.liveLt
  · intro p' hp'
    obtain ⟨p, hp, hmap⟩ := List.mem_map.mp hp'
    rw [← hmap]
    by_cases h : p.1 = key
    · rw [if_pos h]
      show e.restartTimer = none
      exact hpe p hp h ▸ inv.regTimer p hp
    · rw [if_neg h]
      exact inv.regTimer p hp
  · intro p' hp'
    obtain ⟨p, hp, hmap⟩ := List.mem_map.mp hp'
    rw [← hmap]
    show lookupClosureKey (if p.1 = key then _ else p).2.stream s.closureKeys
      = some (if p.1 = key then ((key, { e with socket := some key }) : SocketId × SttEntry) else p).1
    rw [hsnd p hp, hfst p hp]
    exact inv.regKey p hp
  · rw [hstreams]
    exact inv.streamsNodup

/-- `bindSocketToStream` preserves the invariant. -/
theorem sttInv_bindSocket (s : SttState) (key : SocketId) (inv : SttInv s) :
    SttInv (bindSocketToStream s key) := by
  unfold bindSocketToStream
  split
  · rename_i e hl
    exact sttInv_updateSocket s key e inv hl
  · dsimp only
    split
    · rename_i e hl1
      exact sttInv_updateSocket _ key e (sttInv_create s key inv) hl1
    · exact sttInv_create s key inv

/-- `setupRestartTimer` preserves the invariant: it only touches the timer
queue, the timer counter and the closure timer table. -/
theorem sttInv_setupRestartTimer (s : SttState) (h : Nat) (inv : SttInv s) :
    SttInv (setupRestartTimer s h) := by
  unfold setupRestartTimer
  cases lookupClosureKey h s.closureKeys with
  | none => exact inv
  | some key =>
    exact ⟨inv.keysNodup, inv.liveNodup, inv.regLive, inv.liveReg, inv.liveLt,
      inv.regTimer, inv.regKey, inv.streamsNodup⟩

/-- `dataEvent` preserves the invariant. -/
theorem sttInv_dataEvent (s : SttState) (h : Nat) (inv : SttInv s) :
    SttInv (dataEvent s h) := by
  unfold dataEvent
  split
  · exact sttInv_setupRestartTimer s h inv
  · exact inv

/-- `streamError` preserves the invariant. -/
theorem sttInv_streamError (s : SttState) (h : Nat) (inv : SttInv s) :
    SttInv (streamError s h) := by
  unfold streamError
  cases lookupClosureKey h s.closureKeys with
  | none => exact inv
  | some key => exact sttInv_create s key inv

/-- `timerFire` preserves the invariant. -/
theorem sttInv_timerFire (s : SttState) (t : Nat) (inv : SttInv s) :
    SttInv (timerFire s t) := by
  unfold timerFire
  cases (s.pendingTimers.find? (fun p => decide (p.1 = t))).map (fun p => p.2) with
  | none => exact inv
  | some key =>
    refine sttInv_create _ key ?_
    exact ⟨inv.keysNodup, inv.liveNodup, inv.regLive, inv.liveReg, inv.liveLt,
      inv.regTimer, inv.regKey, inv.streamsNodup⟩

/-- `processAudio` preserves the invariant: it only ever marks a stream as
ended. -/
theorem sttInv_processAudio (s : SttState) (key : SocketId) (d : AudioData)
    (inv : SttInv s) : SttInv (processAudio s key d).1 := by
  unfold processAudio
  split
  · exact inv
  · split
    · split
      · exact inv
      · dsimp only
        split
        · exact ⟨inv.keysNodup, inv.liveNodup, inv.regLive, inv.liveReg, inv.liveLt,
            inv.regTimer, inv.regKey, inv.streamsNodup⟩
        · exact inv
    · exact inv

/-- Every operation preserves the invariant. -/
theorem sttInv_step (s : SttState) (op : SttOp) (inv : SttInv s) :
    SttInv (sttStep s op) := by
  cases op with
  | create key => exact sttInv_create s key inv
  | bindSocket key => exact sttInv_bindSocket s key inv
  | data h => exact sttInv_dataEvent s h inv
  | streamErr h => exact sttInv_streamError s h inv
  | fire t => exact sttInv_timerFire s t inv
  | audio key d => exact sttInv_processAudio s key d inv
  | disconnect key => exact sttInv_cleanup s key inv

/-- Every state reachable from the empty service satisfies the invariant. -/
theorem sttInv_run (ops : List SttOp) : SttInv (runStt ops) := by
  suffices hgen : ∀ (l : List SttOp) (s : SttState), SttInv s → SttInv (l.foldl sttStep s) by
    exact hgen ops SttState.init sttInv_init
  intro l
  induction l with
  | nil => intro s inv; exact inv
  | cons op tl ih =>
    intro s inv
    exact ih _ (sttInv_step s op inv)

/-- A duplicate-free list whose elements are pairwise equal has at most one
element. -/
theorem length_le_one_of_all_eq {l : List Nat} (hn : l.Nodup)
    (he : ∀ a ∈ l, ∀ b ∈ l, a = b) : l.length ≤ 1 := by
  match l with
  | [] => simp
  | [a] => simp
  | a :: b :: t =>
    exfalso
    have hab : a = b := he a (by simp) b (by simp)
    have hcons := List.nodup_cons.mp hn
    exact hcons.1 (by rw [hab]; exact List.mem_cons_self b t)

/-- Under the invariant, at most one stream handle is live for any key. -/
theorem liveHandles_le_one (s : SttState) (inv : SttInv s) (k : SocketId) :
    (liveHandlesOf s k).length ≤ 1 := by
  apply length_le_one_of_all_eq
  · exact List.Nodup.filter _ inv.liveNodup
  · intro a ha b hb
    obtain ⟨ha1, ha2⟩ := List.mem_filter.mp ha
    obtain ⟨hb1, hb2⟩ := List.mem_filter.mp hb
    have ha2' : lookupClosureKey a s.closureKeys = some k := by simpa using ha2
    have hb2' : lookupClosureKey b s.closureKeys = some k := by simpa using hb2
    obtain ⟨pa, hpa, hpas⟩ := inv.liveReg a ha1
    obtain ⟨pb, hpb, hpbs⟩ := inv.liveReg b hb1
    have hka := inv.regKey pa hpa
    have hkb := inv.regKey pb hpb
    rw [hpas, ha2'] at hka
    rw [hpbs, hb2'] at hkb
    have hpapb : pa = pb :=
      List.inj_on_of_nodup_map inv.keysNodup hpa hpb
        (by rw [(Option.some.inj hka).symm, (Option.some.inj hkb).symm])
    rw [← hpas, ← hpbs, hpapb]

/-- Under the invariant, a rotation (`createRecognizeStream` for a key that
already has an entry) destroys the prior entry's stream and replaces the
entry with one holding the freshly allocated handle. -/
theorem create_destroys_prior (s : SttState) (key : SocketId) (e : SttEntry)
    (inv : SttInv s) (hl : lookupEntry key s.registry = some e) :
    e.stream ∉ (createRecognizeStream s key).liveStreams
    ∧ lookupEntry key (createRecognizeStream s key).registry
        = some ⟨s.nextHandle, none, none⟩ := by
  have hme : (key, e) ∈ s.registry := lookupEntry_mem hl
  have hlt : e.stream < s.nextHandle := inv.liveLt _ (inv.regLive _ hme)
  have hlive : (createRecognizeStream s key).liveStreams
      = (cleanup s key).nextHandle :: (cleanup s key).liveStreams := rfl
  have hreg : (createRecognizeStream s key).registry
      = (key, ⟨(cleanup s key).nextHandle, none, none⟩) :: (cleanup s key).registry := rfl
  have hnh : (cleanup s key).nextHandle = s.nextHandle := cleanup_nextHandle s key
  have hcl : (cleanup s key).liveStreams
      = s.liveStreams.filter (fun h => decide (h ≠ e.stream)) := by
    unfold cleanup
    simp only [hl]
  constructor
  · rw [hlive, hnh, hcl]
    intro hmem
    rcases List.mem_cons.mp hmem with h1 | h2
    · omega
    · have := (List.mem_filter.mp h2).2
      simp at this
  · rw [hreg, hnh]
    unfold lookupEntry
    rw [List.find?_cons_of_pos _ (by simp)]
    rfl

/-- C2 (amended): for every interleaving of service operations and every
peer key, at most one stream handle is ever live for that key; whenever
`createRecognizeStream` runs for a key that already has an entry, the
prior entry's stream is destroyed and the entry replaced (with the fresh
handle) before the new stream goes live.  (The prior session's pending
rotation timer, however, is not cleared — see the counterexample.) -/
theorem stt_at_most_one_live_handle (ops : List SttOp) (k : SocketId) :
    (liveHandlesOf (runStt ops) k).length ≤ 1
    ∧ ∀ e, lookupEntry k (runStt ops).registry = some e →
        e.stream ∉ (createRecognizeStream (runStt ops) k).liveStreams
        ∧ lookupEntry k (createRecognizeStream (runStt ops) k).registry
            = some ⟨(runStt ops).nextHandle, none, none⟩ := by
  have inv := sttInv_run ops
  exact ⟨liveHandles_le_one _ inv k,
    fun e hl => create_destroys_prior _ k e inv hl⟩

/-- C2 witness: after one create for key `A`, at most one handle is live,
and re-creating for `A` destroys handle 0 and re-registers `A` with the
fresh handle 1. -/
theorem stt_at_most_one_live_handle_witness :
    (liveHandlesOf (runStt [.create "A"]) "A").length ≤ 1
    ∧ (0 ∉ (createRecognizeStream (runStt [.create "A"]) "A").liveStreams
       ∧ lookupEntry "A" (createRecognizeStream (runStt [.create "A"]) "A").registry
           = some ⟨1, none, none⟩) := by
  have h := stt_at_most_one_live_handle [.create "A"] "A"
  exact ⟨h.1, h.2 ⟨0, none, none⟩ (by decide)⟩

/-- C2 counterexample: the rotation path does not clear the prior session's
pending restart timer.  After create, a data event (arming timer 0) and a
re-create for the same key, the new stream 1 is live and registered while
timer 0 is still pending — the prior session was not "fully torn down
(timer cleared)" before the new stream was created. -/
theorem rotation_leaves_prior_timer_pending :
    (runStt [.create "B", .data 0, .create "B"]).pendingTimers = [(0, "B")]
    ∧ lookupEntry "B" (runStt [.create "B", .data 0, .create "B"]).registry
        = some ⟨1, none, none⟩
    ∧ 0 ∉ (runStt [.create "B", .data 0, .create "B"]).liveStreams := by decide

/-- C3 (code bug evidence): `cleanup` reads `restartTimer` off the map
entry, but the second `recognizeStreams.set` in `createRecognizeStream`
stored an entry without that field, so the armed timer survives cleanup:
after create -> data (timer 0 armed) -> disconnect, the registry and live
streams are empty yet timer 0 is still pending, and when it fires its
callback re-creates a session (handle 1) for the disconnected key. -/
theorem cleanup_stale_timer_resurrects :
    (runStt [.create "A", .data 0, .disconnect "A"]).registry = []
    ∧ (runStt [.create "A", .data 0, .disconnect "A"]).liveStreams = []
    ∧ (runStt [.create "A", .data 0, .disconnect "A"]).pendingTimers = [(0, "A")]
    ∧ lookupEntry "A" (runStt [.create "A", .data 0, .disconnect "A", .fire 0]).registry
        = some ⟨1, none, none⟩
    ∧ 1 ∈ (runStt [.create "A", .data 0, .disconnect "A", .fire 0]).liveStreams := by
  decide

/-! ## Audio normalization (C9) -/

/-- JavaScript ToInt16 is the identity on in-range int16 values. -/
theorem jsToInt16_of_range (x : Int) (h1 : -32768 ≤ x) (h2 : x < 32768) :
    jsToInt16 x = x := by
  unfold jsToInt16
  split <;> omega

/-- On in-range samples the numeric-array path produces the canonical
little-endian serialisation. -/
theorem int16ArrayBytes_of_range (samples : List Int)
    (hs : ∀ x ∈ samples, -32768 ≤ x ∧ x < 32768) :
    int16ArrayBytes samples = pcm16LE samples := by
  unfold int16ArrayBytes pcm16LE
  have hmap : samples.map jsToInt16 = samples.map id :=
    List.map_congr_left (fun x hx => jsToInt16_of_range x (hs x hx).1 (hs x hx).2)
  rw [hmap, List.map_id]

/-- Every byte of the canonical serialisation is below 256. -/
theorem pcm16LE_lt_256 (samples : List Int) : ∀ b ∈ pcm16LE samples, b < 256 := by
  intro b hb
  unfold pcm16LE at hb
  rw [List.mem_flatMap] at hb
  obtain ⟨x, hx, hb⟩ := hb
  unfold int16ToLEBytes at hb
  have h1 : 0 ≤ x % 65536 := Int.emod_nonneg x (by norm_num)
  have h2 : x % 65536 < 65536 := Int.emod_lt_of_pos x (by norm_num)
  simp only [List.mem_cons, List.not_mem_nil, or_false] at hb
  rcases hb with h | h <;> subst h <;> omega

/-- `Buffer.from` on canonical bytes is the identity. -/
theorem pcm16LE_map_mod256 (samples : List Int) :
    (pcm16LE samples).map (fun b => b % 256) = pcm16LE samples := by
  have hlt := pcm16LE_lt_256 samples
  have : (pcm16LE samples).map (fun b => b % 256) = (pcm16LE samples).map id :=
    List.map_congr_left (fun b hb => Nat.mod_eq_of_lt (hlt b hb))
  rw [this, List.map_id]

/-- C9: a plain numeric array of int16 samples, the serialised byte-array
wrapper of the same samples, and the raw binary buffer of the same
samples all normalize to the identical canonical byte buffer, and
`processAudio` behaves identically (same state, same writes) on the three
encodings. -/
theorem processAudio_encoding_agnostic (s : SttState) (key : SocketId)
    (samples : List Int) (fin : Bool)
    (hs : ∀ x ∈ samples, -32768 ≤ x ∧ x < 32768) :
    normalizeAudioBuffer (some (.numericArray samples)) = some (pcm16LE samples)
    ∧ normalizeAudioBuffer (some (.bufferJson (pcm16LE samples))) = some (pcm16LE samples)
    ∧ normalizeAudioBuffer (some (.rawBuffer (pcm16LE samples))) = some (pcm16LE samples)
    ∧ processAudio s key ⟨some (.numericArray samples), fin⟩
        = processAudio s key ⟨some (.rawBuffer (pcm16LE samples)), fin⟩
    ∧ processAudio s key ⟨some (.bufferJson (pcm16LE samples)), fin⟩
        = processAudio s key ⟨some (.rawBuffer (pcm16LE samples)), fin⟩ := by
  have h1 : normalizeAudioBuffer (some (.numericArray samples)) = some (pcm16LE samples) := by
    simp only [normalizeAudioBuffer]
    rw [int16ArrayBytes_of_range samples hs]
  have h2 : normalizeAudioBuffer (some (.bufferJson (pcm16LE samples)))
      = some (pcm16LE samples) := by
    simp only [normalizeAudioBuffer]
    rw [pcm16LE_map_mod256]
  have h3 : normalizeAudioBuffer (some (.rawBuffer (pcm16LE samples)))
      = some (pcm16LE samples) := rfl
  refine ⟨h1, h2, h3, ?_, ?_⟩
  · unfold processAudio
    simp only [h1, h3]
  · unfold processAudio
    simp only [h2, h3]

/-- C9 witness: the three encodings of the samples 1, -1, 32767, -32768, 0
normalize identically and drive `processAudio` identically on a state with
a live stream for key `A`. -/
theorem processAudio_encoding_agnostic_witness :
    normalizeAudioBuffer (some (.numericArray [1, -1, 32767, -32768, 0]))
      = some (pcm16LE [1, -1, 32767, -32768, 0])
    ∧ normalizeAudioBuffer (some (.bufferJson (pcm16LE [1, -1, 32767, -32768, 0])))
      = some (pcm16LE [1, -1, 32767, -32768, 0])
    ∧ normalizeAudioBuffer (some (.rawBuffer (pcm16LE [1, -1, 32767, -32768, 0])))
      = some (pcm16LE [1, -1, 32767, -32768, 0])
    ∧ processAudio (runStt [.create "A"]) "A"
        ⟨some (.numericArray [1, -1, 32767, -32768, 0]), false⟩
      = processAudio (runStt [.create "A"]) "A"
        ⟨some (.rawBuffer (pcm16LE [1, -1, 32767, -32768, 0])), false⟩
    ∧ processAudio (runStt [.create "A"]) "A"
        ⟨some (.bufferJson (pcm16LE [1, -1, 32767, -32768, 0])), false⟩
      = processAudio (runStt [.create "A"]) "A"
        ⟨some (.rawBuffer (pcm16LE [1, -1, 32767, -32768, 0])), false⟩ :=
  processAudio_encoding_agnostic (runStt [.create "A"]) "A"
    [1, -1, 32767, -32768, 0] false (by decide)
